import Mathlib

/-!
Verification of the authentication subsystem specification of the edgedb
repository (extension `ext::auth`).  The implementation of the subsystem
(the `auth_ext` server protocol package) is not part of the provided
sources; only its test suite `tests/test_http_ext_auth.py` is.  Every
operational definition below is therefore modelled from the specification
(spec.md) and cross-checked against the observable behaviour asserted by
that test suite.

Cryptographic primitives (SHA-256, Argon2id, HMAC-SHA256 and their
base64/base64url renderings) are external collaborators; they are modelled
as abstract function parameters, taken injective where a claim's truth
relies on collision-freeness.
-/

namespace EdgeDBAuth

/-! ## PKCE store and the GET /token endpoint -/

/-- A row of `ext::auth::PKCEChallenge`: challenge string, optionally bound
identity and provider tokens. -/
structure PKCERow where
  id : Nat
  challenge : String
  identityId : Option Nat
  authToken : Option String
  refreshToken : Option String
  idToken : Option String
deriving DecidableEq, Repr

/-- The JSON body of a successful GET /token response. -/
structure TokenResponse where
  authToken : String
  identityId : Nat
  providerToken : Option String
  providerRefreshToken : Option String
  providerIdToken : Option String
deriving DecidableEq, Repr

/-- Error kinds of the /token endpoint. -/
inductive TokenError where
  | invalidRequest
  | invalidGrant
deriving DecidableEq, Repr

/-- HTTP status of each /token error kind: InvalidRequest is 400,
InvalidGrant is 403. -/
def TokenError.status : TokenError → Nat
  | .invalidRequest => 400
  | .invalidGrant => 403

/-- HTTP status of a /token outcome. -/
def tokenStatus : Except TokenError TokenResponse → Nat
  | .ok _ => 200
  | .error e => e.status

/-- Modelled from the spec: `bind(challenge, identity, tokens)` of the PKCE
store (C2 in spec.md 4.2) — attach identity and provider tokens to an
existing row, addressed here by row id. -/
def bindPKCE (rows : List PKCERow) (code : Nat) (ident : Nat)
    (tok rtok itok : Option String) : List PKCERow :=
  rows.map (fun r =>
    if r.id == code then
      { r with identityId := some ident, authToken := tok,
               refreshToken := rtok, idToken := itok }
    else r)

/-- Modelled from the spec: `claim(pkce_id, verifier)` behind GET /token
(spec.md 4.2 and 6).  `hash` abstracts `base64url(SHA-256(.))`; `mint` is
the freshly minted session auth token.  If the verifier length is outside
43–128 base64url characters the request fails `InvalidRequest` before any
lookup of the code; otherwise the row is looked up, the verifier is checked
against the challenge, an unbound or mismatching row fails `InvalidGrant`
leaving the store unchanged, and a successful claim returns the row's
contents and deletes the row in the same transaction. -/
def getToken (hash : String → String) (mint : String) (rows : List PKCERow)
    (code : Nat) (verifier : String) :
    Except TokenError TokenResponse × List PKCERow :=
  if verifier.length < 43 ∨ 128 < verifier.length then
    (Except.error TokenError.invalidRequest, rows)
  else
    match rows.find? (fun r => r.id == code) with
    | none => (Except.error TokenError.invalidGrant, rows)
    | some row =>
      if hash verifier ≠ row.challenge then
        (Except.error TokenError.invalidGrant, rows)
      else
        match row.identityId with
        | none => (Except.error TokenError.invalidGrant, rows)
        | some ident =>
          (Except.ok
            { authToken := mint, identityId := ident,
              providerToken := row.authToken,
              providerRefreshToken := row.refreshToken,
              providerIdToken := row.idToken },
           rows.filter (fun r => r.id != code))

/-- A 43-character base64url verifier used as a concrete instance. -/
def wVerifier : String := "0123456789012345678901234567890123456789012"

/-- A 43-character verifier distinct from `wVerifier`. -/
def wWrongVerifier : String := "9999999999999999999999999999999999999999999"

/-- A bound PKCE row used as a concrete instance (with the identity hash
taken as the challenge function, its challenge is `wVerifier` itself). -/
def wRow : PKCERow :=
  { id := 1, challenge := wVerifier, identityId := some 7,
    authToken := some "a_provider_token",
    refreshToken := some "a_refresh_token",
    idToken := some "an_id_token" }

/-- Claim C1: for every PKCE pair (verifier, challenge) with
hash(verifier) = challenge, once the challenge row is bound to an identity
and provider tokens, a first GET /token with that code and verifier
succeeds (HTTP 200 with auth token, identity id and the provider tokens),
and a second identical request fails InvalidGrant (HTTP 403), because the
claim deleted the row. -/
theorem pkce_claim_once_then_replay_fails
    (hash : String → String) (mint : String) (rows : List PKCERow)
    (code ident : Nat) (row : PKCERow) (verifier : String)
    (hlen1 : 43 ≤ verifier.length) (hlen2 : verifier.length ≤ 128)
    (hfind : rows.find? (fun r => r.id == code) = some row)
    (hchal : hash verifier = row.challenge)
    (hbound : row.identityId = some ident) :
    (getToken hash mint rows code verifier).1 =
      Except.ok
        { authToken := mint, identityId := ident,
          providerToken := row.authToken,
          providerRefreshToken := row.refreshToken,
          providerIdToken := row.idToken } ∧
    tokenStatus (getToken hash mint rows code verifier).1 = 200 ∧
    (getToken hash mint (getToken hash mint rows code verifier).2
        code verifier).1 = Except.error TokenError.invalidGrant ∧
    tokenStatus (getToken hash mint (getToken hash mint rows code verifier).2
        code verifier).1 = 403 := by
  have hcond : ¬ (verifier.length < 43 ∨ 128 < verifier.length) := by omega
  have h1 : getToken hash mint rows code verifier =
      (Except.ok
        { authToken := mint, identityId := ident,
          providerToken := row.authToken,
          providerRefreshToken := row.refreshToken,
          providerIdToken := row.idToken },
       rows.filter (fun r => r.id != code)) := by
    unfold getToken
    rw [if_neg hcond, hfind]
    simp [hchal, hbound]
  have hnone : (rows.filter (fun r => r.id != code)).find?
      (fun r => r.id == code) = none := by
    rw [List.find?_eq_none]
    intro x hx
    have hx2 := (List.mem_filter.mp hx).2
    simpa using hx2
  have h2 : getToken hash mint (rows.filter (fun r => r.id != code))
      code verifier = (Except.error TokenError.invalidGrant,
        rows.filter (fun r => r.id != code)) := by
    unfold getToken
    rw [if_neg hcond, hnone]
  refine ⟨by rw [h1], by rw [h1]; rfl, ?_, ?_⟩
  · rw [h1]
    simpa using congrArg Prod.fst h2
  · rw [h1]
    have := congrArg Prod.fst h2
    simp only at this
    rw [this]
    rfl

/-- Witness for C1 at a concrete bound row: first claim is 200, replay
is 403. -/
theorem pkce_claim_once_then_replay_fails_witness :
    tokenStatus (getToken id "tok" [wRow] 1 wVerifier).1 = 200 ∧
    tokenStatus (getToken id "tok"
      (getToken id "tok" [wRow] 1 wVerifier).2 1 wVerifier).1 = 403 := by
  have h := pkce_claim_once_then_replay_fails id "tok" [wRow] 1 7 wRow
    wVerifier (by decide) (by decide) (by decide) rfl rfl
  exact ⟨h.2.1, h.2.2.2⟩

/-- Claim C7: a GET /token whose verifier has base64url length outside
43–128 fails InvalidRequest (HTTP 400) before any database lookup: the
outcome is identical for every store, in particular for the empty store
where the code identifies no PKCE row. -/
theorem token_bad_verifier_length_fails_before_lookup
    (hash : String → String) (mint : String) (rows : List PKCERow)
    (code : Nat) (verifier : String)
    (hlen : verifier.length < 43 ∨ 128 < verifier.length) :
    getToken hash mint rows code verifier =
      (Except.error TokenError.invalidRequest, rows) ∧
    tokenStatus (getToken hash mint rows code verifier).1 = 400 ∧
    (getToken hash mint rows code verifier).1 =
      (getToken hash mint [] code verifier).1 := by
  have h : ∀ rs : List PKCERow, getToken hash mint rs code verifier =
      (Except.error TokenError.invalidRequest, rs) := by
    intro rs
    unfold getToken
    rw [if_pos hlen]
  refine ⟨h rows, ?_, ?_⟩
  · rw [h rows]
    rfl
  · rw [h rows, h []]

/-- Witness for C7 with a 3-character verifier and a store in which the
requested code does not exist. -/
theorem token_bad_verifier_length_witness :
    getToken id "tok" [wRow] 2 "abc" =
      (Except.error TokenError.invalidRequest, [wRow]) ∧
    tokenStatus (getToken id "tok" [wRow] 2 "abc").1 = 400 := by
  have h := token_bad_verifier_length_fails_before_lookup id "tok" [wRow]
    2 "abc" (by decide)
  exact ⟨h.1, h.2.1⟩

/-- Claim C10: a GET /token with the correct code but a well-formed
non-matching verifier fails HTTP 403 and leaves the store unchanged; the
same code with the correct verifier still succeeds with the originally
bound identity and provider tokens. -/
theorem token_wrong_verifier_leaves_row_claimable
    (hash : String → String) (mint : String) (rows : List PKCERow)
    (code ident : Nat) (row : PKCERow) (verifier wrong : String)
    (hw1 : 43 ≤ wrong.length) (hw2 : wrong.length ≤ 128)
    (hlen1 : 43 ≤ verifier.length) (hlen2 : verifier.length ≤ 128)
    (hfind : rows.find? (fun r => r.id == code) = some row)
    (hchal : hash verifier = row.challenge)
    (hwrong : hash wrong ≠ row.challenge)
    (hbound : row.identityId = some ident) :
    getToken hash mint rows code wrong =
      (Except.error TokenError.invalidGrant, rows) ∧
    tokenStatus (getToken hash mint rows code wrong).1 = 403 ∧
    (getToken hash mint rows code verifier).1 =
      Except.ok
        { authToken := mint, identityId := ident,
          providerToken := row.authToken,
          providerRefreshToken := row.refreshToken,
          providerIdToken := row.idToken } ∧
    tokenStatus (getToken hash mint rows code verifier).1 = 200 := by
  have hcondw : ¬ (wrong.length < 43 ∨ 128 < wrong.length) := by omega
  have hcond : ¬ (verifier.length < 43 ∨ 128 < verifier.length) := by omega
  have h1 : getToken hash mint rows code wrong =
      (Except.error TokenError.invalidGrant, rows) := by
    unfold getToken
    rw [if_neg hcondw, hfind]
    simp [hwrong]
  have h2 : getToken hash mint rows code verifier =
      (Except.ok
        { authToken := mint, identityId := ident,
          providerToken := row.authToken,
          providerRefreshToken := row.refreshToken,
          providerIdToken := row.idToken },
       rows.filter (fun r => r.id != code)) := by
    unfold getToken
    rw [if_neg hcond, hfind]
    simp [hchal, hbound]
  exact ⟨h1, by rw [h1]; rfl, by rw [h2], by rw [h2]; rfl⟩

/-- Witness for C10 at a concrete bound row and a wrong 43-character
verifier. -/
theorem token_wrong_verifier_witness :
    tokenStatus (getToken id "tok" [wRow] 1 wWrongVerifier).1 = 403 ∧
    (getToken id "tok" [wRow] 1 wWrongVerifier).2 = [wRow] ∧
    tokenStatus (getToken id "tok" [wRow] 1 wVerifier).1 = 200 := by
  have h := token_wrong_verifier_leaves_row_claimable id "tok" [wRow] 1 7
    wRow wVerifier wWrongVerifier (by decide) (by decide) (by decide)
    (by decide) rfl rfl (by decide) rfl
  exact ⟨h.2.1, by rw [h.1], h.2.2.2⟩

/-! ## Password reset tokens -/

/-- A row of `ext::auth::EmailPasswordFactor`. -/
structure EmailPasswordFactor where
  id : Nat
  identityId : Nat
  email : String
  passwordHash : String
  verifiedAt : Option Nat
deriving DecidableEq, Repr

/-- The claim set of a signed Reset token (spec.md 4.1): subject is the
identity id, `secret` is base64(SHA-256(password_hash)) at mint time, and
an explicit expiry. -/
structure ResetToken where
  subject : Nat
  secret : String
  exp : Nat
deriving DecidableEq, Repr

/-- Error kind of POST /reset-password; rendered as HTTP 400. -/
inductive ResetError where
  | invalidToken
deriving DecidableEq, Repr

/-- HTTP status of the reset error. -/
def ResetError.status : ResetError → Nat
  | .invalidToken => 400

/-- Modelled from the spec: minting a Reset token (spec.md 4.1, Reset
kind) by the send-reset flow of the local password provider, which is not
under src/.  `b64sha` abstracts `base64(SHA-256(.))`. -/
def mintResetToken (b64sha : String → String) (identityId : Nat)
    (passwordHash : String) (now ttl : Nat) : ResetToken :=
  { subject := identityId, secret := b64sha passwordHash, exp := now + ttl }

/-- Modelled from the spec: POST /reset-password (spec.md 4.5).  The token
is verified fail-closed: expiry, binding to the factor's identity, and the
embedded digest of the current password hash must all check out; on
success the password hash is replaced and the factor marked verified. -/
def resetPassword (b64sha : String → String) (factor : EmailPasswordFactor)
    (token : ResetToken) (newHash : String) (now : Nat) :
    Except ResetError EmailPasswordFactor :=
  if token.exp ≤ now then
    Except.error ResetError.invalidToken
  else if token.subject ≠ factor.identityId then
    Except.error ResetError.invalidToken
  else if token.secret ≠ b64sha factor.passwordHash then
    Except.error ResetError.invalidToken
  else
    Except.ok { factor with passwordHash := newHash, verifiedAt := some now }

/-- Claim C2: a reset token embeds the digest of the current password
hash, so once the factor's password hash changes (in particular through a
first successful reset with that very token), every later reset-password
request with the same token is rejected with HTTP 400, for any submitted
password and at any time.  The digest function is injective, abstracting
collision-freeness of SHA-256. -/
theorem reset_token_invalidated_by_password_change
    (b64sha : String → String) (hinj : Function.Injective b64sha)
    (factor : EmailPasswordFactor) (token : ResetToken) (mintedAt ttl : Nat)
    (hmint : token =
      mintResetToken b64sha factor.identityId factor.passwordHash mintedAt ttl)
    (factor2 : EmailPasswordFactor) (newHash : String) (now : Nat)
    (hfirst : resetPassword b64sha factor token newHash now =
      Except.ok factor2)
    (hchange : newHash ≠ factor.passwordHash) :
    ∀ (now2 : Nat) (anotherHash : String),
      resetPassword b64sha factor2 token anotherHash now2 =
        Except.error ResetError.invalidToken ∧
      ResetError.status ResetError.invalidToken = 400 := by
  intro now2 anotherHash
  refine ⟨?_, rfl⟩
  unfold resetPassword at hfirst
  split_ifs at hfirst with a1 a2 a3
  injection hfirst with hfac2
  unfold resetPassword
  by_cases h1 : token.exp ≤ now2
  · rw [if_pos h1]
  · rw [if_neg h1]
    have hsubj : ¬ token.subject ≠ factor2.identityId := by
      rw [← hfac2]
      simp [hmint, mintResetToken]
    rw [if_neg hsubj]
    have hsec : token.secret ≠ b64sha factor2.passwordHash := by
      rw [← hfac2]
      simp only [hmint, mintResetToken]
      intro hEq
      exact hchange (hinj hEq).symm
    rw [if_pos hsec]

/-- A concrete email+password factor. -/
def wFactor : EmailPasswordFactor :=
  { id := 1, identityId := 7, email := "user@example.com",
    passwordHash := "H1", verifiedAt := none }

/-- The reset token minted while the factor's hash was `"H1"` (digest
abstracted as the identity function). -/
def wResetToken : ResetToken := mintResetToken id 7 "H1" 0 600

/-- The factor after a first successful reset to hash `"H2"` at time 10. -/
def wFactor2 : EmailPasswordFactor :=
  { id := 1, identityId := 7, email := "user@example.com",
    passwordHash := "H2", verifiedAt := some 10 }

/-- Witness for C2: after the first reset changed the hash, replaying the
same token is rejected. -/
theorem reset_token_invalidated_witness :
    resetPassword id wFactor2 wResetToken "H3" 20 =
      Except.error ResetError.invalidToken := by
  have h := reset_token_invalidated_by_password_change id
    (fun a b hab => hab) wFactor wResetToken 0 600 rfl wFactor2 "H2" 10
    rfl (by decide) 20 "H3"
  exact h.1

/-! ## One-time codes -/

/-- A row of `ext::auth::OneTimeCode`: factor reference, code hash and
expiry instant (seconds). -/
structure OTCRow where
  id : Nat
  factorId : Nat
  codeHash : String
  expiresAt : Nat
deriving DecidableEq, Repr

/-- A row of the append-only `ext::auth::AuthenticationAttempt` ledger. -/
structure Attempt where
  factorId : Nat
  time : Nat
  successful : Bool
deriving DecidableEq, Repr

/-- The OTC-relevant database state: codes and the attempt ledger. -/
structure OTCState where
  otcs : List OTCRow
  attempts : List Attempt
deriving DecidableEq, Repr

/-- Rate-limit configuration: window length (seconds) and maximum number
of failed attempts tolerated within it. -/
structure OTCConfig where
  windowSeconds : Nat
  maxAttempts : Nat
deriving DecidableEq, Repr

/-- The configuration used by the test scenarios: limit of 5 failed
attempts per window. -/
def defaultOTCConfig : OTCConfig := { windowSeconds := 600, maxAttempts := 5 }

/-- OTC verification error kinds (spec.md 7): all are 400-class. -/
inductive OTCError where
  | invalidCode
  | codeExpired
  | attemptsExceeded
deriving DecidableEq, Repr

/-- Every OTC error renders as HTTP 400. -/
def OTCError.status : OTCError → Nat
  | _ => 400

/-- User-visible message fragment of each OTC error (lower-cased, as the
test suite checks containment on the lower-cased body). -/
def OTCError.message : OTCError → String
  | .invalidCode => "invalid code"
  | .codeExpired => "code has expired"
  | .attemptsExceeded => "attempts exceeded"

/-- Number of failed authentication attempts for a factor whose timestamp
lies within the trailing window ending at `now`. -/
def failedAttemptsInWindow (attempts : List Attempt)
    (factorId now window : Nat) : Nat :=
  (attempts.filter (fun a =>
    a.factorId == factorId && !a.successful && now ≤ a.time + window)).length

/-- Modelled from the spec: `verify(factor, code)` of the OTC engine
(spec.md 4.3), whose implementation is not under src/.  `sha` abstracts
SHA-256 over the code bytes.  All OTCs of the factor are considered;
expired rows are deleted regardless of outcome.  A live row matching the
code hash is consumed and a successful attempt appended.  Otherwise, if
the number of failed attempts within the window has reached the limit,
verification short-circuits with AttemptsExceeded (no attempt appended);
else a code matching only an expired row fails CodeExpired, and any other
code fails InvalidCode, both appending a failed attempt (the CodeExpired
outcome follows the repository test `test_http_auth_ext_otc_06`, which
asserts the error "Code has expired" for an expired match). -/
def verifyOTC (sha : String → String) (cfg : OTCConfig) (st : OTCState)
    (factorId : Nat) (code : String) (now : Nat) :
    Except OTCError OTCRow × OTCState :=
  let cleaned :=
    st.otcs.filter (fun o => o.factorId != factorId || now < o.expiresAt)
  match (st.otcs.filter
      (fun o => o.factorId == factorId && now < o.expiresAt)).find?
      (fun o => o.codeHash == sha code) with
  | some o =>
      (Except.ok o,
       { otcs := cleaned.filter (fun o2 => o2.id != o.id),
         attempts := st.attempts ++
           [{ factorId := factorId, time := now, successful := true }] })
  | none =>
      if cfg.maxAttempts ≤
          failedAttemptsInWindow st.attempts factorId now cfg.windowSeconds then
        (Except.error OTCError.attemptsExceeded,
         { otcs := cleaned, attempts := st.attempts })
      else if (st.otcs.filter
          (fun o => o.factorId == factorId && o.expiresAt ≤ now)).any
          (fun o => o.codeHash == sha code) then
        (Except.error OTCError.codeExpired,
         { otcs := cleaned, attempts := st.attempts ++
             [{ factorId := factorId, time := now, successful := false }] })
      else
        (Except.error OTCError.invalidCode,
         { otcs := cleaned, attempts := st.attempts ++
             [{ factorId := factorId, time := now, successful := false }] })

/-- Run a sequence of (code, time) verification tries against one factor,
collecting the outcomes and threading the state. -/
def runOTCCodes (sha : String → String) (cfg : OTCConfig) (st : OTCState)
    (factorId : Nat) (tries : List (String × Nat)) :
    List (Except OTCError OTCRow) × OTCState :=
  tries.foldl
    (fun acc t =>
      let r := verifyOTC sha cfg acc.2 factorId t.1 t.2
      (acc.1 ++ [r.1], r.2))
    ([], st)

/-- One live OTC for factor 1 (hash of "999999" under the concrete hash
function prepending "C"), with an empty attempt ledger. -/
def otcScenario0 : OTCState :=
  { otcs := [{ id := 10, factorId := 1, codeHash := "C999999",
               expiresAt := 1000 }],
    attempts := [] }

/-- An expired OTC for factor 1 whose hash matches code "123456" under the
concrete hash function prepending "C". -/
def cexExpiredMatchOTC : OTCRow :=
  { id := 12, factorId := 1, codeHash := "C123456", expiresAt := 50 }

/-- A state holding only the expired matching OTC. -/
def cexExpiredOnlyState : OTCState :=
  { otcs := [cexExpiredMatchOTC], attempts := [] }

/-- Counterexample to C3 as stated: at time 100 the code "123456" matches
no live OTC and the factor is far below the attempt limit, yet the outcome
is CodeExpired — not InvalidCode — because the code matches an expired
OTC (behaviour pinned by test_http_auth_ext_otc_06, which asserts the
error "Code has expired"). -/
theorem otc_expired_match_is_not_invalid_code :
    (verifyOTC (fun s => "C" ++ s) defaultOTCConfig cexExpiredOnlyState 1
        "123456" 100).1 = Except.error OTCError.codeExpired ∧
    failedAttemptsInWindow cexExpiredOnlyState.attempts 1 100
        defaultOTCConfig.windowSeconds < defaultOTCConfig.maxAttempts ∧
    (cexExpiredOnlyState.otcs.filter
        (fun o => o.factorId == 1 && 100 < o.expiresAt)).find?
        (fun o => o.codeHash == "C123456") = none ∧
    (verifyOTC (fun s => "C" ++ s) defaultOTCConfig cexExpiredOnlyState 1
        "123456" 100).1 ≠ Except.error OTCError.invalidCode := by
  have h1 : (verifyOTC (fun s => "C" ++ s) defaultOTCConfig
      cexExpiredOnlyState 1 "123456" 100).1 =
      Except.error OTCError.codeExpired := rfl
  refine ⟨h1, by decide, rfl, ?_⟩
  rw [h1]
  intro h
  exact OTCError.noConfusion (Except.error.inj h)

/-- Claim C3 (amended): when a submitted code matches no live OTC of the
factor, verification short-circuits with AttemptsExceeded and appends
nothing once the failed attempts within the window have reached the limit;
below the limit it appends a failed attempt and returns InvalidCode, or
CodeExpired when the code matches only an expired OTC.  All outcomes are
HTTP 400; five consecutive wrong codes yield "invalid code" and the sixth
"attempts exceeded". -/
theorem otc_no_live_match_outcomes
    (sha : String → String) (cfg : OTCConfig) (st : OTCState)
    (factorId : Nat) (code : String) (now : Nat)
    (hnolive : (st.otcs.filter
        (fun o => o.factorId == factorId && now < o.expiresAt)).find?
        (fun o => o.codeHash == sha code) = none) :
    (cfg.maxAttempts ≤
        failedAttemptsInWindow st.attempts factorId now cfg.windowSeconds →
      (verifyOTC sha cfg st factorId code now).1 =
        Except.error OTCError.attemptsExceeded ∧
      (verifyOTC sha cfg st factorId code now).2.attempts = st.attempts) ∧
    (failedAttemptsInWindow st.attempts factorId now cfg.windowSeconds <
        cfg.maxAttempts →
      ((st.otcs.filter
          (fun o => o.factorId == factorId && o.expiresAt ≤ now)).any
          (fun o => o.codeHash == sha code) = false →
        (verifyOTC sha cfg st factorId code now).1 =
          Except.error OTCError.invalidCode ∧
        (verifyOTC sha cfg st factorId code now).2.attempts =
          st.attempts ++
            [{ factorId := factorId, time := now, successful := false }]) ∧
      ((st.otcs.filter
          (fun o => o.factorId == factorId && o.expiresAt ≤ now)).any
          (fun o => o.codeHash == sha code) = true →
        (verifyOTC sha cfg st factorId code now).1 =
          Except.error OTCError.codeExpired ∧
        (verifyOTC sha cfg st factorId code now).2.attempts =
          st.attempts ++
            [{ factorId := factorId, time := now, successful := false }])) ∧
    (∀ e : OTCError, OTCError.status e = 400) ∧
    OTCError.message OTCError.invalidCode = "invalid code" ∧
    OTCError.message OTCError.attemptsExceeded = "attempts exceeded" ∧
    (runOTCCodes (fun s => "C" ++ s) defaultOTCConfig otcScenario0 1
      [("000000", 1), ("000001", 2), ("000002", 3), ("000003", 4),
       ("000004", 5), ("000006", 6)]).1 =
      [Except.error OTCError.invalidCode, Except.error OTCError.invalidCode,
       Except.error OTCError.invalidCode, Except.error OTCError.invalidCode,
       Except.error OTCError.invalidCode,
       Except.error OTCError.attemptsExceeded] := by
  refine ⟨?_, ?_, by intro e; cases e <;> rfl, rfl, rfl, rfl⟩
  · intro hle
    have hv : verifyOTC sha cfg st factorId code now =
        (Except.error OTCError.attemptsExceeded,
         { otcs := st.otcs.filter
             (fun o => o.factorId != factorId || now < o.expiresAt),
           attempts := st.attempts }) := by
      simp only [verifyOTC, hnolive]
      rw [if_pos hle]
    rw [hv]
    exact ⟨rfl, rfl⟩
  · intro hlt
    have hnle : ¬ cfg.maxAttempts ≤
        failedAttemptsInWindow st.attempts factorId now cfg.windowSeconds := by
      omega
    constructor
    · intro hany
      have hv : verifyOTC sha cfg st factorId code now =
          (Except.error OTCError.invalidCode,
           { otcs := st.otcs.filter
               (fun o => o.factorId != factorId || now < o.expiresAt),
             attempts := st.attempts ++
               [{ factorId := factorId, time := now,
                  successful := false }] }) := by
        simp only [verifyOTC, hnolive]
        rw [if_neg hnle, if_neg (by simp [hany])]
      rw [hv]
      exact ⟨rfl, rfl⟩
    · intro hany
      have hv : verifyOTC sha cfg st factorId code now =
          (Except.error OTCError.codeExpired,
           { otcs := st.otcs.filter
               (fun o => o.factorId != factorId || now < o.expiresAt),
             attempts := st.attempts ++
               [{ factorId := factorId, time := now,
                  successful := false }] }) := by
        simp only [verifyOTC, hnolive]
        rw [if_neg hnle, if_pos hany]
      rw [hv]
      exact ⟨rfl, rfl⟩

/-- Witness for C3 at the scenario state: the first wrong code yields
InvalidCode. -/
theorem otc_no_live_match_witness :
    (verifyOTC (fun s => "C" ++ s) defaultOTCConfig otcScenario0 1
        "000000" 1).1 = Except.error OTCError.invalidCode := by
  have h := otc_no_live_match_outcomes (fun s => "C" ++ s) defaultOTCConfig
    otcScenario0 1 "000000" 1 rfl
  have h2 := h.2.1 (by decide)
  exact (h2.1 rfl).1

/-- A live OTC for factor 1 matching code "123456" under the concrete hash
function prepending "C". -/
def cexLiveOTC : OTCRow :=
  { id := 10, factorId := 1, codeHash := "C123456", expiresAt := 1000 }

/-- An expired OTC for factor 1 not matching the submitted code. -/
def cexExpiredOTC : OTCRow :=
  { id := 11, factorId := 1, codeHash := "C111111", expiresAt := 50 }

/-- A state holding one live and one expired OTC for factor 1. -/
def cexOTCState : OTCState :=
  { otcs := [cexLiveOTC, cexExpiredOTC], attempts := [] }

/-- Counterexample to C4 as stated: a successful verification deletes the
matched live OTC, so not every live OTC is left in place. -/
theorem otc_success_removes_matched_live_row :
    (verifyOTC (fun s => "C" ++ s) defaultOTCConfig cexOTCState 1
        "123456" 100).1 = Except.ok cexLiveOTC ∧
    cexLiveOTC ∈ cexOTCState.otcs ∧
    100 < cexLiveOTC.expiresAt ∧
    cexLiveOTC ∉
      (verifyOTC (fun s => "C" ++ s) defaultOTCConfig cexOTCState 1
        "123456" 100).2.otcs := by
  exact ⟨rfl, by decide, by decide, by decide⟩

/-- Claim C4 (amended): verification can only succeed with a live OTC of
the factor matching the submitted code hash; every verify attempt leaves
no expired OTC of the factor in the store; and every OTC that is live or
belongs to another factor survives, except the matched one consumed by a
successful verification. -/
theorem otc_verify_sweeps_expired_rows
    (sha : String → String) (cfg : OTCConfig) (st : OTCState)
    (factorId : Nat) (code : String) (now : Nat) :
    (∀ o : OTCRow, (verifyOTC sha cfg st factorId code now).1 =
        Except.ok o →
      o ∈ st.otcs ∧ o.factorId = factorId ∧ now < o.expiresAt ∧
        o.codeHash = sha code) ∧
    (∀ o ∈ (verifyOTC sha cfg st factorId code now).2.otcs,
      o.factorId = factorId → now < o.expiresAt) ∧
    (∀ o ∈ st.otcs, (o.factorId ≠ factorId ∨ now < o.expiresAt) →
      (∀ m : OTCRow, (verifyOTC sha cfg st factorId code now).1 =
          Except.ok m → o.id ≠ m.id) →
      o ∈ (verifyOTC sha cfg st factorId code now).2.otcs) := by
  rcases hfind : (st.otcs.filter
      (fun o => o.factorId == factorId && now < o.expiresAt)).find?
      (fun o => o.codeHash == sha code) with _ | o0
  · have hv2 : (verifyOTC sha cfg st factorId code now).2.otcs =
        st.otcs.filter
          (fun o => o.factorId != factorId || now < o.expiresAt) := by
      simp only [verifyOTC, hfind]
      split_ifs <;> rfl
    have hv1 : ∀ o : OTCRow,
        (verifyOTC sha cfg st factorId code now).1 ≠ Except.ok o := by
      intro o
      simp only [verifyOTC, hfind]
      split_ifs <;> · intro h; exact Except.noConfusion h
    refine ⟨fun o ho => absurd ho (hv1 o), ?_, ?_⟩
    · intro o ho hfac
      rw [hv2] at ho
      have h2 := (List.mem_filter.mp ho).2
      simp only [hfac, bne_self_eq_false, Bool.false_or,
        decide_eq_true_eq] at h2
      exact h2
    · intro o ho hlive _
      rw [hv2]
      refine List.mem_filter.mpr ⟨ho, ?_⟩
      rcases hlive with h | h
      · simp [h]
      · simp [h]
  · have hp := List.find?_some hfind
    have hmem := List.mem_filter.mp (List.mem_of_find?_eq_some hfind)
    have hfacexp := hmem.2
    simp only [Bool.and_eq_true, beq_iff_eq, decide_eq_true_eq] at hfacexp
    have hhash : o0.codeHash = sha code := by simpa using hp
    have hv : verifyOTC sha cfg st factorId code now =
        (Except.ok o0,
         { otcs := (st.otcs.filter
             (fun o => o.factorId != factorId || now < o.expiresAt)).filter
             (fun o2 => o2.id != o0.id),
           attempts := st.attempts ++
             [{ factorId := factorId, time := now,
                successful := true }] }) := by
      simp only [verifyOTC, hfind]
    refine ⟨?_, ?_, ?_⟩
    · intro o ho
      have ho2 : (Except.ok o0 : Except OTCError OTCRow) = Except.ok o := by
        rw [hv] at ho
        exact ho
      injection ho2 with hoo
      subst hoo
      exact ⟨hmem.1, hfacexp.1, hfacexp.2, hhash⟩
    · intro o ho hfac
      rw [hv] at ho
      have ho2 : o ∈ (st.otcs.filter
          (fun o => o.factorId != factorId || now < o.expiresAt)).filter
          (fun o2 => o2.id != o0.id) := ho
      have h1 := (List.mem_filter.mp ho2).1
      have h2 := (List.mem_filter.mp h1).2
      simp only [hfac, bne_self_eq_false, Bool.false_or,
        decide_eq_true_eq] at h2
      exact h2
    · intro o ho hlive hm
      have hid : o.id ≠ o0.id := hm o0 (by rw [hv])
      rw [hv]
      show o ∈ (st.otcs.filter
        (fun o => o.factorId != factorId || now < o.expiresAt)).filter
        (fun o2 => o2.id != o0.id)
      refine List.mem_filter.mpr ⟨List.mem_filter.mpr ⟨ho, ?_⟩, ?_⟩
      · rcases hlive with h | h
        · simp [h]
        · simp [h]
      · simpa using hid

/-- Witness for C4: in the two-row state, a wrong code still sweeps the
expired row. -/
theorem otc_verify_sweeps_witness :
    cexExpiredOTC ∉
      (verifyOTC (fun s => "C" ++ s) defaultOTCConfig cexOTCState 1
        "999999" 100).2.otcs := by
  intro hmem
  have h := (otc_verify_sweeps_expired_rows (fun s => "C" ++ s)
    defaultOTCConfig cexOTCState 1 "999999" 100).2.1 cexExpiredOTC hmem
    (by decide)
  exact absurd h (by decide)

/-! ## WebAuthn factors -/

/-- A row of `ext::auth::WebAuthnFactor` (bytes modelled as lists of
byte values). -/
structure WebAuthnFactor where
  id : Nat
  identityId : Nat
  email : String
  userHandle : List Nat
  credentialId : List Nat
  publicKey : List Nat
deriving DecidableEq, Repr

/-- Typed store errors surfaced by the Identity/Factor store
(spec.md 4.8). -/
inductive InsertError where
  | assertionFailed (msg : String)
  | uniqueViolation
deriving DecidableEq, Repr

/-- Modelled from the spec: insertion of a WebAuthnFactor, guarded by the
database trigger revalidated in the store (spec.md 3 invariant 1 and 9):
an insert whose user_handle differs from an existing factor with the same
email raises AssertionFailed (message pinned by the test suite), and
credential_id is unique. -/
def insertWebAuthnFactor (factors : List WebAuthnFactor)
    (f : WebAuthnFactor) : Except InsertError (List WebAuthnFactor) :=
  if factors.any
      (fun g => g.email == f.email && g.userHandle != f.userHandle) then
    Except.error (InsertError.assertionFailed
      "user_handle must be the same for a given email")
  else if factors.any (fun g => g.credentialId == f.credentialId) then
    Except.error InsertError.uniqueViolation
  else
    Except.ok (factors ++ [f])

/-- The invariant: all factors sharing an email share the user handle. -/
def userHandleConsistent (factors : List WebAuthnFactor) : Prop :=
  ∀ f ∈ factors, ∀ g ∈ factors, f.email = g.email →
    f.userHandle = g.userHandle

/-- Modelled from the spec: the user-handle choice of
webauthn/register/options (spec.md 4.7): reuse the handle of any existing
factor for the email, otherwise use the freshly generated handle. -/
def registerOptionsUserHandle (factors : List WebAuthnFactor)
    (email : String) (fresh : List Nat) : List Nat :=
  match factors.find? (fun f => f.email == email) with
  | some f => f.userHandle
  | none => fresh

/-- Claim C5: inserting a WebAuthnFactor whose user_handle differs from an
existing factor with the same email fails with AssertionFailed; successful
inserts preserve the one-handle-per-email invariant; and register/options
for an email that already has factors returns the existing user_handle
regardless of the freshly generated one. -/
theorem webauthn_user_handle_invariant
    (factors : List WebAuthnFactor) (f : WebAuthnFactor)
    (hcons : userHandleConsistent factors) :
    (∀ g ∈ factors, g.email = f.email → g.userHandle ≠ f.userHandle →
      insertWebAuthnFactor factors f =
        Except.error (InsertError.assertionFailed
          "user_handle must be the same for a given email")) ∧
    (∀ factors2, insertWebAuthnFactor factors f = Except.ok factors2 →
      userHandleConsistent factors2) ∧
    (∀ g ∈ factors, ∀ fresh : List Nat, g.email = f.email →
      registerOptionsUserHandle factors f.email fresh = g.userHandle) := by
  refine ⟨?_, ?_, ?_⟩
  · intro g hg hemail hneq
    have hany : factors.any
        (fun g => g.email == f.email && g.userHandle != f.userHandle) =
        true :=
      List.any_eq_true.mpr ⟨g, hg, by simp [hemail, hneq]⟩
    unfold insertWebAuthnFactor
    rw [if_pos hany]
  · intro factors2 hok
    unfold insertWebAuthnFactor at hok
    split_ifs at hok with h1 h2
    injection hok with hfac2
    have hsame : ∀ g ∈ factors, g.email = f.email →
        g.userHandle = f.userHandle := by
      intro g hg he
      by_contra hne
      exact h1 (List.any_eq_true.mpr ⟨g, hg, by simp [he, hne]⟩)
    subst hfac2
    intro x hx y hy hxy
    rcases List.mem_append.mp hx with hx1 | hx1 <;>
      rcases List.mem_append.mp hy with hy1 | hy1
    · exact hcons x hx1 y hy1 hxy
    · have hy2 : y = f := List.mem_singleton.mp hy1
      subst hy2
      exact hsame x hx1 hxy
    · have hx2 : x = f := List.mem_singleton.mp hx1
      subst hx2
      exact (hsame y hy1 hxy.symm).symm
    · have hx2 : x = f := List.mem_singleton.mp hx1
      have hy2 : y = f := List.mem_singleton.mp hy1
      rw [hx2, hy2]
  · intro g hg fresh hemail
    rcases hfd : factors.find? (fun x => x.email == f.email) with _ | f0
    · exact absurd (by simp [hemail]) (List.find?_eq_none.mp hfd g hg)
    · have hf0mem := List.mem_of_find?_eq_some hfd
      have hf0email : f0.email = f.email := by
        simpa using List.find?_some hfd
      have : registerOptionsUserHandle factors f.email fresh =
          f0.userHandle := by
        unfold registerOptionsUserHandle
        rw [hfd]
      rw [this]
      exact hcons f0 hf0mem g hg (by rw [hf0email, hemail])

/-- An existing WebAuthn factor for the shared email. -/
def wWebAuthnFactor1 : WebAuthnFactor :=
  { id := 1, identityId := 7, email := "w@example.com",
    userHandle := [1, 2], credentialId := [10], publicKey := [20] }

/-- A second factor for the same email with a differing user handle. -/
def wWebAuthnFactor2 : WebAuthnFactor :=
  { id := 2, identityId := 8, email := "w@example.com",
    userHandle := [3, 4], credentialId := [11], publicKey := [21] }

/-- Witness for C5: the differing-handle insert fails with the pinned
assertion message, and register/options returns the existing handle. -/
theorem webauthn_user_handle_witness :
    insertWebAuthnFactor [wWebAuthnFactor1] wWebAuthnFactor2 =
      Except.error (InsertError.assertionFailed
        "user_handle must be the same for a given email") ∧
    registerOptionsUserHandle [wWebAuthnFactor1] wWebAuthnFactor2.email
        [9] = wWebAuthnFactor1.userHandle := by
  have h := webauthn_user_handle_invariant [wWebAuthnFactor1]
    wWebAuthnFactor2
    (by
      intro a ha b hb he
      rw [List.mem_singleton.mp ha, List.mem_singleton.mp hb])
  exact ⟨h.1 wWebAuthnFactor1 (by decide) rfl (by decide),
         h.2.2 wWebAuthnFactor1 (by decide) [9] rfl⟩

/-! ## Allowed-URL policy -/

/-- A parsed URL: scheme, host, optional explicit port, path. -/
structure Url where
  scheme : String
  host : String
  port : Option Nat
  path : String
deriving DecidableEq, Repr

/-- Whether the character sequence of p starts the character sequence
of s. -/
def listStarts : List Char → List Char → Bool
  | [], _ => true
  | _ :: _, [] => false
  | a :: as, b :: bs => a == b && listStarts as bs

/-- String p is a character-wise initial segment of string s. -/
def pathStarts (p s : String) : Bool := listStarts p.toList s.toList

/-- The character sequence of suf terminates the character sequence
of s. -/
def listEnds (suf s : List Char) : Bool := listStarts suf.reverse s.reverse

/-- String suf is a character-wise final segment of string s. -/
def strEnds (suf s : String) : Bool := listEnds suf.toList s.toList

/-- Modelled from the spec and the repository test suite: a candidate URL
matches an allow-list entry when scheme, port and path prefix match
exactly (spec.md 4.11, no suffix or glob magic) and the candidate host
either equals the entry host or is a subdomain of it.  Spec.md 4.11 words
the host comparison as exact, but
test_http_auth_ext_local_password_register_form_01 pins acceptance of the
candidate host oauth.example.com against the sole allow-list entry host
example.com, so the program accepts subdomains of allow-listed hosts. -/
def urlMatchesEntry (candidate entry : Url) : Bool :=
  candidate.scheme == entry.scheme &&
    (candidate.host == entry.host ||
      strEnds (String.append "." entry.host) candidate.host) &&
    candidate.port == entry.port && pathStarts entry.path candidate.path

/-- Modelled from the spec: the allow-list check over all entries. -/
def urlAllowed (allowList : List Url) (candidate : Url) : Bool :=
  allowList.any (fun e => urlMatchesEntry candidate e)

/-- Modelled from the spec: redirect/reset URL validation; a URL matching
no allow-list entry is rejected with HTTP 400. -/
def checkRedirect (allowList : List Url) (candidate : Url) :
    Except Nat Url :=
  if urlAllowed allowList candidate then Except.ok candidate
  else Except.error 400

/-- The single configured allow-list entry of the test database:
https://example.com/app with no explicit port. -/
def wAllowEntry : Url :=
  { scheme := "https", host := "example.com", port := none,
    path := "/app" }

/-- The configured allow-list of the test database. -/
def wAllowList : List Url := [wAllowEntry]

/-- The redirect_to candidate of
test_http_auth_ext_local_password_register_form_01: a subdomain host of
the allow-listed entry. -/
def wSubdomainCandidate : Url :=
  { scheme := "https", host := "oauth.example.com", port := none,
    path := "/app/path" }

/-- Counterexample to C6 as stated: against the configured allow-list,
whose only entry has host example.com, the candidate
https://oauth.example.com/app/path differs in host from every entry yet
is accepted rather than rejected with 400 (the register-form test asserts
a 302 to it), refuting the exact-host iff. -/
theorem url_subdomain_accepted_not_rejected :
    wAllowList = [wAllowEntry] ∧
    wAllowEntry.host = "example.com" ∧
    wSubdomainCandidate.host ≠ wAllowEntry.host ∧
    checkRedirect wAllowList wSubdomainCandidate =
      Except.ok wSubdomainCandidate ∧
    checkRedirect wAllowList wSubdomainCandidate ≠ Except.error 400 := by
  have hok : checkRedirect wAllowList wSubdomainCandidate =
      Except.ok wSubdomainCandidate := rfl
  refine ⟨rfl, rfl, by decide, hok, ?_⟩
  rw [hok]
  intro h
  exact Except.noConfusion h

/-- Claim C6 (amended): a candidate URL is allowed iff some allow-list
entry matches it in scheme, port and path prefix exactly, with the
candidate host equal to the entry host or a subdomain of it; a candidate
matching no entry in this sense is rejected with 400 — in particular the
test candidates with an unrelated domain, a differing port, or a
non-matching path prefix — while the subdomain candidate of the
register-form test is accepted. -/
theorem url_allowlist_subdomain_match_iff
    (allowList : List Url) (candidate : Url) :
    (urlAllowed allowList candidate = true ↔
      ∃ e ∈ allowList, candidate.scheme = e.scheme ∧
        (candidate.host = e.host ∨
          strEnds (String.append "." e.host) candidate.host = true) ∧
        candidate.port = e.port ∧
        pathStarts e.path candidate.path = true) ∧
    (urlAllowed allowList candidate = false →
      checkRedirect allowList candidate = Except.error 400) ∧
    ((∀ e ∈ allowList, ¬(candidate.scheme = e.scheme ∧
        (candidate.host = e.host ∨
          strEnds (String.append "." e.host) candidate.host = true) ∧
        candidate.port = e.port ∧
        pathStarts e.path candidate.path = true)) →
      checkRedirect allowList candidate = Except.error 400) ∧
    checkRedirect wAllowList
      { scheme := "https", host := "not-on-the-allow-list.com",
        port := none, path := "/some/path" } = Except.error 400 ∧
    checkRedirect wAllowList
      { scheme := "https", host := "oauth.example.com", port := some 8080,
        path := "/app/some/path" } = Except.error 400 ∧
    checkRedirect wAllowList
      { scheme := "https", host := "oauth.example.com", port := none,
        path := "/wrong-base/path" } = Except.error 400 ∧
    checkRedirect wAllowList wSubdomainCandidate =
      Except.ok wSubdomainCandidate := by
  have hiff : urlAllowed allowList candidate = true ↔
      ∃ e ∈ allowList, candidate.scheme = e.scheme ∧
        (candidate.host = e.host ∨
          strEnds (String.append "." e.host) candidate.host = true) ∧
        candidate.port = e.port ∧
        pathStarts e.path candidate.path = true := by
    simp only [urlAllowed, urlMatchesEntry, List.any_eq_true,
      Bool.and_eq_true, Bool.or_eq_true, beq_iff_eq, and_assoc]
  have h400 : urlAllowed allowList candidate = false →
      checkRedirect allowList candidate = Except.error 400 := by
    intro h
    simp [checkRedirect, h]
  refine ⟨hiff, h400, ?_, rfl, rfl, rfl, rfl⟩
  intro hall
  apply h400
  cases hq : urlAllowed allowList candidate
  · rfl
  · exfalso
    obtain ⟨e, he, hprops⟩ := hiff.mp hq
    exact hall e he hprops

/-- Witness for C6: the port-mismatch candidate of the register-form test
is rejected with 400. -/
theorem url_allowlist_subdomain_witness :
    checkRedirect wAllowList
      { scheme := "https", host := "oauth.example.com", port := some 8080,
        path := "/app/some/path" } = Except.error 400 := by
  have h := url_allowlist_subdomain_match_iff wAllowList
    { scheme := "https", host := "oauth.example.com", port := some 8080,
      path := "/app/some/path" }
  exact h.2.1 (by decide)

/-! ## Webhook dispatch -/

/-- A configured webhook subscription: URL, subscribed event set, and
optional HMAC signing secret. -/
structure WebhookSubscription where
  url : String
  events : List String
  signingSecretKey : Option String
deriving DecidableEq, Repr

/-- An outbound webhook POST: target URL, JSON body, and the value of the
x-ext-auth-signature-sha256 header when present. -/
structure WebhookRequest where
  url : String
  body : String
  signatureHeader : Option String
deriving DecidableEq, Repr

/-- Modelled from the spec: delivery of one event to one subscription
(spec.md 4.10): a POST of the body to the subscription URL when the event
type is subscribed, with header x-ext-auth-signature-sha256 set to
hex(HMAC-SHA256(secret, body)) when a signing secret is configured.
`hmacHex` abstracts the hex-rendered HMAC-SHA256. -/
def deliverEvent (hmacHex : String → String → String)
    (sub : WebhookSubscription) (eventType : String) (body : String) :
    Option WebhookRequest :=
  if sub.events.contains eventType then
    some { url := sub.url, body := body,
           signatureHeader :=
             sub.signingSecretKey.map (fun k => hmacHex k body) }
  else none

/-- Modelled from the spec: the flow controller enqueues exactly one
IdentityAuthenticated event, carrying the subject identity id, after a
successful /token exchange (spec.md 4.9/4.10 and scenario S6). -/
def tokenSuccessEvents :
    Except TokenError TokenResponse → List (String × String)
  | Except.ok resp =>
      [("IdentityAuthenticated",
        String.append "identity_id=" (toString resp.identityId))]
  | Except.error _ => []

/-- All webhook requests produced for one subscription from a list of
(event type, body) pairs. -/
def webhookDeliveries (hmacHex : String → String → String)
    (sub : WebhookSubscription) (events : List (String × String)) :
    List WebhookRequest :=
  events.filterMap (fun ev => deliverEvent hmacHex sub ev.1 ev.2)

/-- Claim C8: after a successful /token call, a subscription holding a
signing secret and subscribed to IdentityAuthenticated receives exactly
one POST, at its URL, whose signature header is the HMAC of the exact
delivered body under that secret. -/
theorem webhook_signed_exactly_once
    (hmacHex : String → String → String) (hash : String → String)
    (mint : String) (rows : List PKCERow) (code : Nat) (verifier : String)
    (sub : WebhookSubscription) (key : String) (resp : TokenResponse)
    (hok : (getToken hash mint rows code verifier).1 = Except.ok resp)
    (hsub : sub.events.contains "IdentityAuthenticated" = true)
    (hkey : sub.signingSecretKey = some key) :
    ∃ req : WebhookRequest,
      webhookDeliveries hmacHex sub
        (tokenSuccessEvents (getToken hash mint rows code verifier).1) =
        [req] ∧
      req.url = sub.url ∧
      req.signatureHeader = some (hmacHex key req.body) := by
  rw [hok]
  refine ⟨{ url := sub.url,
            body := String.append "identity_id=" (toString resp.identityId),
            signatureHeader := some (hmacHex key
              (String.append "identity_id=" (toString resp.identityId))) },
          ?_, rfl, rfl⟩
  have hmem : "IdentityAuthenticated" ∈ sub.events := by simpa using hsub
  simp [webhookDeliveries, tokenSuccessEvents, deliverEvent, hkey, hmem]

/-- The webhook subscription of the /token test, with secret "S". -/
def wSubscription : WebhookSubscription :=
  { url := "https://example.com/webhook-01",
    events := ["IdentityAuthenticated"], signingSecretKey := some "S" }

/-- Witness for C8 on the concrete successful /token exchange of the C1
instance. -/
theorem webhook_signed_witness :
    ∃ req : WebhookRequest,
      webhookDeliveries (fun k b => "MAC:" ++ k ++ ":" ++ b) wSubscription
        (tokenSuccessEvents (getToken id "tok" [wRow] 1 wVerifier).1) =
        [req] ∧
      req.url = wSubscription.url ∧
      req.signatureHeader =
        some ((fun k b => "MAC:" ++ k ++ ":" ++ b) "S" req.body) :=
  webhook_signed_exactly_once (fun k b => "MAC:" ++ k ++ ":" ++ b) id
    "tok" [wRow] 1 wVerifier wSubscription "S"
    { authToken := "tok", identityId := 7,
      providerToken := some "a_provider_token",
      providerRefreshToken := some "a_refresh_token",
      providerIdToken := some "an_id_token" }
    rfl rfl rfl

/-! ## Identity delete cascade -/

/-- The polymorphic factor kinds of the data model. -/
inductive FactorKind where
  | emailPassword
  | magicLink
  | webAuthn
  | email
deriving DecidableEq, Repr

/-- A factor row: every factor is bound to one identity. -/
structure FactorRow where
  id : Nat
  identityId : Nat
  kind : FactorKind
deriving DecidableEq, Repr

/-- A PKCE challenge reference to its bound identity. -/
structure PKCERef where
  id : Nat
  identityId : Nat
deriving DecidableEq, Repr

/-- A one-time-code row referencing its factor. -/
structure OTCRef where
  id : Nat
  factorId : Nat
deriving DecidableEq, Repr

/-- An authentication-attempt row referencing its factor. -/
structure AttemptRef where
  id : Nat
  factorId : Nat
deriving DecidableEq, Repr

/-- The identity/factor store tables relevant to cascade deletion. -/
structure AuthStore where
  identities : List Nat
  factors : List FactorRow
  pkceChallenges : List PKCERef
  oneTimeCodes : List OTCRef
  attempts : List AttemptRef
deriving DecidableEq, Repr

/-- Modelled from the spec: cascading delete of an Identity (spec.md 3,
invariant 4 and lifecycle): removing an identity removes its factors, its
PKCE challenges, and the one-time codes and authentication attempts of the
removed factors.  The operation is a total function: it succeeds without a
referential-integrity error even while dependent rows exist. -/
def deleteIdentity (st : AuthStore) (i : Nat) : AuthStore :=
  { identities := st.identities.filter (fun j => j != i),
    factors := st.factors.filter (fun f => f.identityId != i),
    pkceChallenges := st.pkceChallenges.filter (fun p => p.identityId != i),
    oneTimeCodes := st.oneTimeCodes.filter
      (fun o => !((st.factors.filter (fun f => f.identityId == i)).any
        (fun f => f.id == o.factorId))),
    attempts := st.attempts.filter
      (fun a => !((st.factors.filter (fun f => f.identityId == i)).any
        (fun f => f.id == a.factorId))) }

/-- Claim C9: deleting an identity always succeeds and leaves zero rows
referencing it: the identity itself is gone, no factor of any kind and no
PKCE challenge references it, and no surviving one-time code or
authentication attempt references a factor that belonged to it. -/
theorem identity_delete_cascades (st : AuthStore) (i : Nat) :
    i ∉ (deleteIdentity st i).identities ∧
    (∀ f ∈ (deleteIdentity st i).factors, f.identityId ≠ i) ∧
    (∀ p ∈ (deleteIdentity st i).pkceChallenges, p.identityId ≠ i) ∧
    (∀ o ∈ (deleteIdentity st i).oneTimeCodes,
      ∀ f ∈ st.factors, f.id = o.factorId → f.identityId ≠ i) ∧
    (∀ a ∈ (deleteIdentity st i).attempts,
      ∀ f ∈ st.factors, f.id = a.factorId → f.identityId ≠ i) := by
  refine ⟨?_, ?_, ?_, ?_, ?_⟩
  · intro hmem
    simp only [deleteIdentity] at hmem
    have h2 := (List.mem_filter.mp hmem).2
    simp at h2
  · intro f hf
    simp only [deleteIdentity] at hf
    have h2 := (List.mem_filter.mp hf).2
    simpa using h2
  · intro p hp
    simp only [deleteIdentity] at hp
    have h2 := (List.mem_filter.mp hp).2
    simpa using h2
  · intro o ho f hf hfid hcontra
    simp only [deleteIdentity] at ho
    have h2 := (List.mem_filter.mp ho).2
    have hfd : f ∈ st.factors.filter (fun g => g.identityId == i) :=
      List.mem_filter.mpr ⟨hf, by simp [hcontra]⟩
    have hany : (st.factors.filter (fun g => g.identityId == i)).any
        (fun g => g.id == o.factorId) = true :=
      List.any_eq_true.mpr ⟨f, hfd, by simp [hfid]⟩
    rw [hany] at h2
    simp at h2
  · intro a ha f hf hfid hcontra
    simp only [deleteIdentity] at ha
    have h2 := (List.mem_filter.mp ha).2
    have hfd : f ∈ st.factors.filter (fun g => g.identityId == i) :=
      List.mem_filter.mpr ⟨hf, by simp [hcontra]⟩
    have hany : (st.factors.filter (fun g => g.identityId == i)).any
        (fun g => g.id == a.factorId) = true :=
      List.any_eq_true.mpr ⟨f, hfd, by simp [hfid]⟩
    rw [hany] at h2
    simp at h2

/-- A store with one identity owning an email+password factor, a WebAuthn
factor, a PKCE challenge, a one-time code and an attempt. -/
def wAuthStore : AuthStore :=
  { identities := [7],
    factors := [{ id := 1, identityId := 7, kind := FactorKind.emailPassword },
                { id := 2, identityId := 7, kind := FactorKind.webAuthn }],
    pkceChallenges := [{ id := 3, identityId := 7 }],
    oneTimeCodes := [{ id := 4, factorId := 1 }],
    attempts := [{ id := 5, factorId := 2 }] }

/-- Witness for C9: the delete of identity 7 succeeds on the populated
store and removes it together with every dependent row. -/
theorem identity_delete_cascades_witness :
    7 ∉ (deleteIdentity wAuthStore 7).identities ∧
    (deleteIdentity wAuthStore 7).factors = [] ∧
    (deleteIdentity wAuthStore 7).oneTimeCodes = [] :=
  ⟨(identity_delete_cascades wAuthStore 7).1, by decide, by decide⟩

end EdgeDBAuth
